import Mathlib

/-!
Verification of the `fase1_qcs_simulador` quantum-control simulator.

This file gives a shallow embedding of the repository's core code paths:

* `qcs_api_mock.py`: operation records, channels, the device graph
  (`System._load_devices`), the `SequenceBuilder` and `Experiment.run`;
* `utils/converter.py`: `pulse_to_waveform`;
* `physics_simulator.py`: `simulate_qubit_evolution`;
* `rabi_simulation.py`: `QuTiPSimulationBackend.execute`.

Python floats appearing in waveform mathematics are modelled as real
numbers; numeric values carried opaquely through configuration data
(YAML parameters) are modelled as rationals so that the device-graph
code stays fully computable.  Python exceptions are modelled with
`Except String`.
-/

namespace QCS

/-- A numeric YAML parameter value: a scalar or a list of scalars
(`physics_simulator.py` handles both for the `frequency` entry). -/
inductive ParamValue where
  | num (x : ℚ)
  | list (xs : List ℚ)
deriving DecidableEq, Repr

/-- `PulseOperation` dataclass from `qcs_api_mock.py`: channel path,
duration (s), amplitude, frequency, phase, and shape string.  In the
source the defaults are duration `40e-9`, amplitude `0.0`,
frequency `0.0`, phase `0.0`, shape `gaussian`. -/
structure PulseOperation where
  channel_path : String
  duration : ℝ
  amplitude : ℝ
  frequency : ℝ
  phase : ℝ
  shape : String

/-- The heterogeneous operation records a Python sequence list may hold:
`PulseOperation`, `DelayOperation {duration}`, or
`MeasureOperation {channel_path, integration_time}`. -/
inductive Operation where
  | pulse (op : PulseOperation)
  | delay (duration : ℝ)
  | measure (channel_path : String) (integration_time : ParamValue)

/-- Python `int()` truncation toward zero, on a real argument. -/
noncomputable def truncInt (x : ℝ) : ℤ :=
  if 0 ≤ x then ⌊x⌋ else ⌈x⌉

/-- `np.linspace(0, stop, n, endpoint=False)`: `n` samples starting at 0
with step `stop / n`. -/
noncomputable def linspace_ef (stop : ℝ) (n : ℕ) : List ℝ :=
  (List.range n).map (fun (i : ℕ) => (i : ℝ) * (stop / n))

/-- The gaussian branch's standard deviation, `sigma = op.duration / 4`
in `pulse_to_waveform`. -/
noncomputable def sigmaOf (duration : ℝ) : ℝ := duration / 4

/-- The gaussian envelope formula of `pulse_to_waveform` as a function of
time: `amplitude * exp(-0.5 * ((t - center) / sigma)^2)` with
`center = duration / 2` and `sigma = duration / 4`. -/
noncomputable def gaussianEnvelope (amplitude duration x : ℝ) : ℝ :=
  amplitude * Real.exp (-(1 / 2 : ℝ) * (((x - duration / 2) / sigmaOf duration) ^ 2))

/-- `pulse_to_waveform` from `utils/converter.py`.
`n_points = max(int(op.duration * sample_rate), 2)`;
`t = np.linspace(0, op.duration, n_points, endpoint=False)`;
the envelope is the gaussian formula sampled on `t` for shape
`"gaussian"`, `amplitude * np.ones(n_points)` for `"square"`, and
`np.zeros(n_points)` otherwise.  Returns `(t, envelope)`. -/
noncomputable def pulse_to_waveform (op : PulseOperation) (sample_rate : ℝ) :
    List ℝ × List ℝ :=
  let n_points : ℕ := (max (truncInt (op.duration * sample_rate)) 2).toNat
  let t := linspace_ef op.duration n_points
  let envelope :=
    if op.shape = "gaussian" then
      t.map (fun x => gaussianEnvelope op.amplitude op.duration x)
    else if op.shape = "square" then
      (List.range n_points).map (fun _ => op.amplitude)
    else
      (List.range n_points).map (fun _ => (0 : ℝ))
  (t, envelope)

/-- The hard-coded calibration constant `VOLT_TO_RABI_HERTZ = 25e6` of
`physics_simulator.py`. -/
noncomputable def VOLT_TO_RABI_HERTZ : ℝ := 25e6

/-- The frequency-parsing prologue of `simulate_qubit_evolution`:
`qubit_params.get('frequency', 5.0e9)`, then `float(x[0])` when the
value is a list or tuple (raising `IndexError` on an empty one) and
`float(x)` otherwise. -/
def parseFreq (qubit_params : List (String × ParamValue)) : Except String ℚ :=
  match (qubit_params.lookup "frequency").getD (ParamValue.num 5.0e9) with
  | ParamValue.num x => Except.ok x
  | ParamValue.list [] => Except.error "IndexError: list index out of range"
  | ParamValue.list (x :: _) => Except.ok x

/-- A parameter map whose `frequency` entry (or its absence, giving the
default `5.0e9`) parses without an exception: a scalar or a nonempty
list. -/
def wfFreq (qubit_params : List (String × ParamValue)) : Prop :=
  match (qubit_params.lookup "frequency").getD (ParamValue.num 5.0e9) with
  | ParamValue.num _ => True
  | ParamValue.list xs => xs ≠ []

instance (qubit_params : List (String × ParamValue)) :
    Decidable (wfFreq qubit_params) := by
  unfold wfFreq
  cases (qubit_params.lookup "frequency").getD (ParamValue.num 5.0e9) with
  | num x => exact isTrue trivial
  | list xs => exact (inferInstance : Decidable (xs ≠ []))

/-- Trapezoid integral of a piecewise-linear function given by sample
points `(t_i, a_i)`: the exact value of the integral of
`np.interp(·, t_list, a)` over the grid span that the ODE solver in
`simulate_qubit_evolution` integrates against. -/
noncomputable def trapezoid : List ℝ → List ℝ → ℝ
  | t1 :: t2 :: ts, a1 :: a2 :: as => (t2 - t1) * (a1 + a2) / 2 + trapezoid (t2 :: ts) (a2 :: as)
  | _, _ => 0

/-- `simulate_qubit_evolution` from `physics_simulator.py`.  It parses
the qubit frequency (which the rest of the function never uses), scales
the envelope into an angular Rabi-frequency envelope
`2π * 25e6 * envelope`, validates that the time and envelope arrays have
equal length (raising `ValueError` otherwise), and calls
`qt.mesolve([[0.5*sigmax(), interp]], |0⟩, t_list, c_ops=[],
e_ops=[|1⟩⟨1|])`, returning the final expectation value.  On an empty
`t_list` (which only arises together with an empty envelope, the arrays
having passed the length check) the solver call itself raises
`IndexError`: QuTiP reads `tlist[0]` for the initial integration time,
and `result.expect[0][-1]` would index an empty array; this error path
is modelled by the `isEmpty` branch.  On a nonempty grid, because every
`H(t) = Ω(t)·σx/2` commutes with every other, the Schrödinger equation
that `mesolve` integrates has the closed-form final excited-state
population `sin²(Θ/2)` with `Θ = ∫Ω(t)dt`, the trapezoid sum of the
piecewise-linear interpolant; the solver call is modelled by that exact
solution (its numerical tolerance is abstracted away). -/
noncomputable def simulate_qubit_evolution (pulse_envelope : List ℝ)
    (t_list : List ℝ) (qubit_params : List (String × ParamValue)) :
    Except String ℝ :=
  match parseFreq qubit_params with
  | Except.error e => Except.error e
  | Except.ok _qubit_freq =>
    let rabi_freq_envelope := pulse_envelope.map (fun x => x * VOLT_TO_RABI_HERTZ)
    let angular_freq_envelope := rabi_freq_envelope.map (fun x => 2 * Real.pi * x)
    if t_list.length ≠ angular_freq_envelope.length then
      Except.error "t_list e envelope precisam ter o mesmo tamanho"
    else
      if t_list.isEmpty then
        Except.error "IndexError: index 0 is out of bounds for axis 0 with size 0"
      else
        Except.ok (Real.sin (trapezoid t_list angular_freq_envelope / 2) ^ 2)

/-- `ReadoutChannel` from `qcs_api_mock.py`: a path plus the
integration time taken from the owning resonator's parameters.  Each
`ReadoutResonator.__init__` creates exactly one such object at path
`"<name>.measure"`; since device names are the keys of a Python dict
(hence unique), value equality of this record coincides with Python
object identity for channels present in one loaded `System`. -/
structure ReadoutChannel where
  path : String
  integration_time : ParamValue
deriving DecidableEq, Repr

/-- A device in the `System.quantum_devices` graph: a `TunableQubit`
(name, parameters, and its `readout` back-reference, `None` until the
linking pass assigns it) or a `ReadoutResonator` (name, parameters, and
its owned `measure_channel`).  The qubit's `xy`/`z` channels and the
resonator's `drive` channel are pure functions of the name
(`"<name>.xy"` etc.) and are omitted. -/
inductive Device where
  | tunableQubit (name : String) (parameters : List (String × ParamValue))
      (readout : Option ReadoutChannel)
  | readoutResonator (name : String) (parameters : List (String × ParamValue))
      (measure_channel : ReadoutChannel)
deriving DecidableEq, Repr

/-- The `parameters` attribute, present on both device classes. -/
def Device.parameters : Device → List (String × ParamValue)
  | Device.tunableQubit _ p _ => p
  | Device.readoutResonator _ p _ => p

/-- Whether a device is a `TunableQubit` (`isinstance(·, TunableQubit)`). -/
def Device.isQubit : Device → Bool
  | Device.tunableQubit _ _ _ => true
  | Device.readoutResonator _ _ _ => false

/-- One entry of the YAML `quantum_devices` mapping: its `type` tag, its
`channels` mapping, and its `parameters` mapping. -/
structure DeviceConfig where
  type : String
  channels : List (String × String)
  parameters : List (String × ParamValue)
deriving DecidableEq, Repr

/-- A configuration: the `quantum_devices` mapping as an association
list in YAML insertion order (keys unique, as in any Python dict). -/
abbrev Config := List (String × DeviceConfig)

/-- Instantiation step of `System._load_devices`: dispatch on the `type`
tag through `device_map`; `TunableQubit.__init__` stores the parameters
and sets `readout = None`; `ReadoutResonator.__init__` stores the
parameters and creates its `measure_channel` at `"<name>.measure"` with
`parameters.get('integration_time', 1e-6)`; an unrecognized type yields
no device (silently skipped). -/
def buildDevice (name : String) (cfg : DeviceConfig) : Option Device :=
  if cfg.type = "TunableQubit" then
    some (Device.tunableQubit name cfg.parameters none)
  else if cfg.type = "ReadoutResonator" then
    some (Device.readoutResonator name cfg.parameters
      ⟨name ++ ".measure", (cfg.parameters.lookup "integration_time").getD (ParamValue.num (1 / 1000000))⟩)
  else
    none

/-- The first loop of `System._load_devices`: build
`self.quantum_devices` in configuration order, skipping unrecognized
types. -/
def buildAll (cfgs : Config) : List (String × Device) :=
  match cfgs with
  | [] => []
  | (name, cfg) :: rest =>
    match buildDevice name cfg with
    | some d => (name, d) :: buildAll rest
    | none => buildAll rest

/-- The linking step of `System._load_devices` for one device.  For a
`TunableQubit` it reads
`self.config['quantum_devices'][name]['channels']['readout']` (a missing
key raises `KeyError`), and if that name is a key of
`self.quantum_devices` it executes
`device.readout = self.quantum_devices[readout_name].measure_channel` —
an attribute access that raises `AttributeError` when the named device
is not a `ReadoutResonator`.  A name absent from the graph leaves the
qubit untouched; non-qubit devices are untouched. -/
def linkQubit (cfgs : Config) (devs : List (String × Device)) :
    Device → Except String Device
  | Device.tunableQubit name params _ =>
    match cfgs.lookup name with
    | none => Except.error "KeyError: device name"
    | some cfg =>
      match cfg.channels.lookup "readout" with
      | none => Except.error "KeyError: readout"
      | some readout_name =>
        match devs.lookup readout_name with
        | none => Except.ok (Device.tunableQubit name params none)
        | some (Device.readoutResonator _ _ mc) =>
          Except.ok (Device.tunableQubit name params (some mc))
        | some (Device.tunableQubit _ _ _) =>
          Except.error "AttributeError: TunableQubit object has no attribute measure_channel"
  | d => Except.ok d

/-- The second loop of `System._load_devices`, applied to every loaded
device.  A resonator's `measure_channel` is never mutated by the loop,
so reading other devices through the pre-link graph `devs` is exact. -/
def linkAll (cfgs : Config) (devs : List (String × Device)) :
    List (String × Device) → Except String (List (String × Device))
  | [] => Except.ok []
  | (name, d) :: rest =>
    match linkQubit cfgs devs d with
    | Except.error e => Except.error e
    | Except.ok d2 =>
      match linkAll cfgs devs rest with
      | Except.error e => Except.error e
      | Except.ok rest2 => Except.ok ((name, d2) :: rest2)

/-- `System._load_devices`: instantiate all recognized devices, then run
the readout-linking pass over them. -/
def loadDevices (cfgs : Config) : Except String (List (String × Device)) :=
  linkAll cfgs (buildAll cfgs) (buildAll cfgs)

/-- `System.get_instances(TunableQubit)`: the devices of the graph, in
insertion order, that are `TunableQubit` instances. -/
def get_instances_qubit (devs : List (String × Device)) : List Device :=
  (devs.map Prod.snd).filter Device.isQubit

/-- `SequenceBuilder.append`: `self.operations.append(operation)`. -/
def SequenceBuilder.append (operations : List Operation) (op : Operation) :
    List Operation :=
  operations ++ [op]

/-- `SequenceBuilder.delay`:
`self.operations.append(DelayOperation(duration=duration))`. -/
def SequenceBuilder.delay (operations : List Operation) (duration : ℝ) :
    List Operation :=
  operations ++ [Operation.delay duration]

/-- One builder method call that a user's `make_sequence` body can issue,
in program order. -/
inductive BuilderCall where
  | append (op : Operation)
  | delay (duration : ℝ)

/-- Execute one builder call against the builder's state. -/
def applyCall (operations : List Operation) : BuilderCall → List Operation
  | BuilderCall.append op => SequenceBuilder.append operations op
  | BuilderCall.delay d => SequenceBuilder.delay operations d

/-- Run a `make_sequence` body — a straight-line series of builder
calls — against a builder state. -/
def runCalls (operations : List Operation) (calls : List BuilderCall) :
    List Operation :=
  calls.foldl applyCall operations

/-- The single operation each builder call appends. -/
def callOp : BuilderCall → Operation
  | BuilderCall.append op => op
  | BuilderCall.delay d => Operation.delay d

/-- `Experiment.run`: create a fresh `SequenceBuilder` (empty operations
list), run `make_sequence` (here: its straight-line builder calls) to
populate it, and return `backend.execute(builder.operations)`
unmodified. -/
def Experiment.run {α : Type} (make_sequence : List BuilderCall)
    (execute : List Operation → α) : α :=
  execute (runCalls [] make_sequence)

/-- Python's substring test `pat in s`. -/
def strContains (s pat : String) : Bool :=
  s.toList.tails.any (fun t => pat.toList.isPrefixOf t)

/-- The generator filter of `QuTiPSimulationBackend.execute`:
`isinstance(op, PulseOperation) and 'xy' in op.channel_path`, returning
the pulse when it matches. -/
def xyDrivePulse : Operation → Option PulseOperation
  | Operation.pulse p => if strContains p.channel_path "xy" then some p else none
  | _ => none

/-- `next((op for op in operations if ...), None)`: the first matching
XY drive pulse of the sequence, if any. -/
def firstXYPulse (operations : List Operation) : Option PulseOperation :=
  operations.findSome? xyDrivePulse

/-- `self.experiment.system.get_instances(TunableQubit)[0].parameters`:
the parameters of the first tunable qubit, raising `IndexError` when
the graph holds none. -/
def firstQubitParams (devs : List (String × Device)) :
    Except String (List (String × ParamValue)) :=
  match (get_instances_qubit devs).head? with
  | some d => Except.ok d.parameters
  | none => Except.error "IndexError: list index out of range"

/-- `QuTiPSimulationBackend.execute` from `rabi_simulation.py`: find the
first `PulseOperation` whose `channel_path` contains `"xy"`; if none,
return `0.0`; otherwise convert it with `pulse_to_waveform` (default
sample rate `1e9`), fetch the first tunable qubit's parameters from the
bound experiment's system, and return
`simulate_qubit_evolution(envelope, t_list, qubit_params)`. -/
noncomputable def QuTiPSimulationBackend.execute (operations : List Operation)
    (devs : List (String × Device)) : Except String ℝ :=
  match firstXYPulse operations with
  | none => Except.ok 0
  | some control_pulse_op =>
    let tw := pulse_to_waveform control_pulse_op 1e9
    match firstQubitParams devs with
    | Except.error e => Except.error e
    | Except.ok qubit_params => simulate_qubit_evolution tw.2 tw.1 qubit_params

theorem linspace_ef_length (stop : ℝ) (n : ℕ) : (linspace_ef stop n).length = n := by
  unfold linspace_ef
  rw [List.length_map, List.length_range]

theorem linspace_ef_getD (stop : ℝ) (n i : ℕ) (h : i < n) :
    (linspace_ef stop n).getD i 0 = (i : ℝ) * (stop / n) := by
  unfold linspace_ef
  rw [List.getD_eq_getElem?_getD, List.getElem?_map, List.getElem?_range h]
  rfl

theorem linspace_ef_mem (stop : ℝ) (n : ℕ) (x : ℝ) (hx : x ∈ linspace_ef stop n) :
    ∃ i, i < n ∧ x = (i : ℝ) * (stop / n) := by
  simp only [linspace_ef, List.mem_map, List.mem_range] at hx
  obtain ⟨i, hi, hix⟩ := hx
  exact ⟨i, hi, hix.symm⟩

theorem truncInt_nonneg_eq (x : ℝ) (h : 0 ≤ x) : truncInt x = ⌊x⌋ := by
  simp [truncInt, h]

theorem n_points_eq (D R : ℝ) (hD : 0 < D) (hR : 0 < R) :
    (max (truncInt (D * R)) 2).toNat = max (⌊D * R⌋).toNat 2 := by
  rw [truncInt_nonneg_eq _ (le_of_lt (mul_pos hD hR))]
  omega

theorem waveform_t_eq (op : PulseOperation) (R : ℝ) :
    (pulse_to_waveform op R).1 =
      linspace_ef op.duration ((max (truncInt (op.duration * R)) 2).toNat) := rfl

theorem waveform_env_length (op : PulseOperation) (R : ℝ) :
    (pulse_to_waveform op R).2.length = (max (truncInt (op.duration * R)) 2).toNat := by
  unfold pulse_to_waveform
  by_cases h1 : op.shape = "gaussian" <;> by_cases h2 : op.shape = "square" <;>
    simp [h1, h2, linspace_ef_length]

/-- The sampling contract of `pulse_to_waveform` at duration `D` and
sample rate `R`: time and envelope arrays share length
`N = max(floor(D*R), 2) ≥ 2`, and the time points are `i * (D/N)` for
`i = 0, …, N-1` — evenly spaced with step `D/N`, starting at 0 and
staying strictly below `D`. -/
noncomputable def waveformSamplingSpec (op : PulseOperation) (R : ℝ) : Prop :=
  (pulse_to_waveform op R).1.length = max (⌊op.duration * R⌋).toNat 2 ∧
  (pulse_to_waveform op R).2.length = (pulse_to_waveform op R).1.length ∧
  2 ≤ (pulse_to_waveform op R).1.length ∧
  (∀ i, i < (pulse_to_waveform op R).1.length →
    (pulse_to_waveform op R).1.getD i 0 =
      (i : ℝ) * (op.duration / (max (⌊op.duration * R⌋).toNat 2 : ℕ))) ∧
  (pulse_to_waveform op R).1.getD 0 0 = 0 ∧
  (∀ i, i + 1 < (pulse_to_waveform op R).1.length →
    (pulse_to_waveform op R).1.getD (i + 1) 0 - (pulse_to_waveform op R).1.getD i 0 =
      op.duration / (max (⌊op.duration * R⌋).toNat 2 : ℕ)) ∧
  (∀ x ∈ (pulse_to_waveform op R).1, 0 ≤ x ∧ x < op.duration)

/-- C1: for every pulse with duration `D > 0` and every sample rate
`R > 0`, `pulse_to_waveform` returns equal-length time and envelope
arrays of length `N = max(floor(D*R), 2) ≥ 2`, with the `N` time points
evenly spaced over the half-open interval `[0, D)` with step `D/N`
(first point 0, `D` itself excluded). -/
theorem C1_waveform_length_and_grid (op : PulseOperation) (R : ℝ)
    (hD : 0 < op.duration) (hR : 0 < R) : waveformSamplingSpec op R := by
  have hNe := n_points_eq op.duration R hD hR
  unfold waveformSamplingSpec
  set N : ℕ := max (⌊op.duration * R⌋).toNat 2 with hN
  have hN2 : 2 ≤ N := le_max_right _ _
  have hNpos : 0 < N := lt_of_lt_of_le (by norm_num) hN2
  have hNR : (0 : ℝ) < (N : ℝ) := by exact_mod_cast hNpos
  have ht : (pulse_to_waveform op R).1 = linspace_ef op.duration N := by
    rw [waveform_t_eq, hNe]
  have hlen : (pulse_to_waveform op R).1.length = N := by
    rw [ht, linspace_ef_length]
  have hstep : (0 : ℝ) < op.duration / N := div_pos hD hNR
  refine ⟨hlen, ?_, ?_, ?_, ?_, ?_, ?_⟩
  · rw [waveform_env_length, hNe, hlen]
  · rw [hlen]; exact hN2
  · intro i hi
    rw [hlen] at hi
    rw [ht, linspace_ef_getD _ _ _ hi]
  · rw [ht, linspace_ef_getD _ _ _ hNpos]
    simp
  · intro i hi
    rw [hlen] at hi
    rw [ht, linspace_ef_getD _ _ _ hi, linspace_ef_getD _ _ _ (Nat.lt_of_succ_lt hi)]
    push_cast
    ring
  · intro x hx
    rw [ht] at hx
    obtain ⟨i, hi, rfl⟩ := linspace_ef_mem _ _ _ hx
    constructor
    · positivity
    · have hcast : (i : ℝ) < (N : ℝ) := by exact_mod_cast hi
      calc (i : ℝ) * (op.duration / N) < (N : ℝ) * (op.duration / N) :=
            mul_lt_mul_of_pos_right hcast hstep
        _ = op.duration := by field_simp

/-- Witness for C1 at a concrete gaussian pulse of duration 1 sampled at
rate 4. -/
theorem C1_witness :
    waveformSamplingSpec ⟨"q0.xy", 1, 1, 0, 0, "gaussian"⟩ 4 :=
  C1_waveform_length_and_grid ⟨"q0.xy", 1, 1, 0, 0, "gaussian"⟩ 4 one_pos (by norm_num)

theorem getD_map_lt (f : ℝ → ℝ) (l : List ℝ) (i : ℕ) (h : i < l.length) (d d2 : ℝ) :
    (l.map f).getD i d = f (l.getD i d2) := by
  rw [List.getD_eq_getElem?_getD, List.getD_eq_getElem?_getD, List.getElem?_map,
    List.getElem?_eq_getElem h]
  rfl

theorem waveform_env_gaussian (op : PulseOperation) (R : ℝ) (h : op.shape = "gaussian") :
    (pulse_to_waveform op R).2 =
      (pulse_to_waveform op R).1.map (fun x => gaussianEnvelope op.amplitude op.duration x) := by
  simp [pulse_to_waveform, h]

theorem gaussianEnvelope_center (A D : ℝ) : gaussianEnvelope A D (D / 2) = A := by
  simp [gaussianEnvelope]

theorem gaussianEnvelope_abs_le (A D x : ℝ) : |gaussianEnvelope A D x| ≤ |A| := by
  unfold gaussianEnvelope
  rw [abs_mul, Real.abs_exp]
  have hz : -(1 / 2 : ℝ) * (((x - D / 2) / sigmaOf D) ^ 2) ≤ 0 := by
    have hsq : (0 : ℝ) ≤ ((x - D / 2) / sigmaOf D) ^ 2 := sq_nonneg _
    nlinarith
  have hle : Real.exp (-(1 / 2 : ℝ) * (((x - D / 2) / sigmaOf D) ^ 2)) ≤ 1 :=
    Real.exp_le_one_iff.mpr hz
  calc |A| * Real.exp (-(1 / 2 : ℝ) * (((x - D / 2) / sigmaOf D) ^ 2))
      ≤ |A| * 1 := mul_le_mul_of_nonneg_left hle (abs_nonneg A)
    _ = |A| := mul_one _

theorem waveform_gaussian_sample (op : PulseOperation) (R : ℝ)
    (hshape : op.shape = "gaussian") (i : ℕ)
    (hi : i < (pulse_to_waveform op R).2.length) :
    (pulse_to_waveform op R).2.getD i 0 =
      op.amplitude * Real.exp (-(1 / 2 : ℝ) *
        ((((pulse_to_waveform op R).1.getD i 0 - op.duration / 2) / (op.duration / 4)) ^ 2)) := by
  rw [waveform_env_gaussian op R hshape] at hi ⊢
  rw [List.length_map] at hi
  rw [getD_map_lt _ _ _ hi 0 0]
  simp [gaussianEnvelope, sigmaOf]

/-- The gaussian-shape contract of `pulse_to_waveform`: every envelope
sample is `A * exp(-0.5 * ((t_i - D/2) / (D/4))^2)` at its time sample
`t_i`, the envelope function equals `A` at the pulse center `D/2`, and
`A` bounds the envelope's magnitude everywhere (the center is the
peak). -/
noncomputable def gaussianWaveformSpec (op : PulseOperation) (R : ℝ) : Prop :=
  (∀ i, i < (pulse_to_waveform op R).2.length →
    (pulse_to_waveform op R).2.getD i 0 =
      op.amplitude * Real.exp (-(1 / 2 : ℝ) *
        ((((pulse_to_waveform op R).1.getD i 0 - op.duration / 2) / (op.duration / 4)) ^ 2))) ∧
  gaussianEnvelope op.amplitude op.duration (op.duration / 2) = op.amplitude ∧
  (∀ x : ℝ, |gaussianEnvelope op.amplitude op.duration x| ≤ |op.amplitude|)

/-- C2: for every pulse with shape `"gaussian"`, duration `D > 0` and
amplitude `A`, every envelope sample of `pulse_to_waveform` equals
`A * exp(-0.5 * ((t_i - D/2) / (D/4))^2)` at its corresponding time
sample `t_i`; the peak value is `A`, attained at the pulse center
`t = D/2` (and it bounds the envelope's magnitude everywhere). -/
theorem C2_gaussian_envelope (op : PulseOperation) (R : ℝ)
    (hshape : op.shape = "gaussian") (hD : 0 < op.duration) :
    gaussianWaveformSpec op R :=
  ⟨fun i hi => waveform_gaussian_sample op R hshape i hi,
   gaussianEnvelope_center op.amplitude op.duration,
   fun x => gaussianEnvelope_abs_le op.amplitude op.duration x⟩

/-- Witness for C2 at a concrete gaussian pulse of duration 1,
amplitude 2, sample rate 4. -/
theorem C2_witness : gaussianWaveformSpec ⟨"q0.xy", 1, 2, 0, 0, "gaussian"⟩ 4 :=
  C2_gaussian_envelope ⟨"q0.xy", 1, 2, 0, 0, "gaussian"⟩ 4 rfl one_pos

/-- C5: for a `"square"` pulse every envelope sample equals the
amplitude exactly, and for any shape that is neither `"gaussian"` nor
`"square"` every envelope sample is zero; both branches are ordinary
returns of the (total) converter, not errors. -/
theorem C5_square_and_fallback (op : PulseOperation) (R : ℝ) :
    (op.shape = "square" → ∀ x ∈ (pulse_to_waveform op R).2, x = op.amplitude) ∧
    (op.shape ≠ "gaussian" → op.shape ≠ "square" → ∀ x ∈ (pulse_to_waveform op R).2, x = 0) := by
  constructor
  · intro h x hx
    have hng : op.shape ≠ "gaussian" := by rw [h]; decide
    simp only [pulse_to_waveform, if_neg hng, if_pos h] at hx
    simp only [List.mem_map] at hx
    obtain ⟨i, _, hix⟩ := hx
    exact hix.symm
  · intro h1 h2 x hx
    simp only [pulse_to_waveform, if_neg h1, if_neg h2] at hx
    simp only [List.mem_map] at hx
    obtain ⟨i, _, hix⟩ := hx
    exact hix.symm

/-- Witness for C5: a concrete square pulse has all samples equal to its
amplitude, and a concrete unknown-shape pulse has an all-zero
envelope. -/
theorem C5_witness :
    (∀ x ∈ (pulse_to_waveform ⟨"q0.z", 1, 3, 0, 0, "square"⟩ 4).2, x = (3 : ℝ)) ∧
    (∀ x ∈ (pulse_to_waveform ⟨"q0.z", 1, 3, 0, 0, "triangle"⟩ 4).2, x = 0) :=
  ⟨(C5_square_and_fallback ⟨"q0.z", 1, 3, 0, 0, "square"⟩ 4).1 rfl,
   (C5_square_and_fallback ⟨"q0.z", 1, 3, 0, 0, "triangle"⟩ 4).2 (by decide) (by decide)⟩

/-- C9: under the channel contract's precondition `duration > 0`, the
gaussian branch's divisor `sigma = duration / 4` is nonzero, and every
envelope sample is the well-defined real
`A * exp(-0.5 * ((t_i - D/2) / sigma)^2)`; the precondition is
necessary since at `duration = 0` the branch's divisor `sigma` is 0. -/
theorem C9_gaussian_no_div_by_zero (op : PulseOperation) (R : ℝ)
    (hshape : op.shape = "gaussian") (hD : 0 < op.duration) :
    sigmaOf op.duration ≠ 0 ∧
    (∀ i, i < (pulse_to_waveform op R).2.length →
      (pulse_to_waveform op R).2.getD i 0 =
        op.amplitude * Real.exp (-(1 / 2 : ℝ) *
          ((((pulse_to_waveform op R).1.getD i 0 - op.duration / 2) / sigmaOf op.duration) ^ 2))) ∧
    sigmaOf 0 = 0 := by
  refine ⟨?_, ?_, ?_⟩
  · exact div_ne_zero (ne_of_gt hD) (by norm_num)
  · intro i hi
    rw [waveform_gaussian_sample op R hshape i hi]
    rfl
  · simp [sigmaOf]

/-- Witness for C9 at a concrete gaussian pulse of duration 1. -/
theorem C9_witness :
    sigmaOf (1 : ℝ) ≠ 0 ∧
    (∀ i, i < (pulse_to_waveform ⟨"q0.xy", 1, 2, 0, 0, "gaussian"⟩ 4).2.length →
      (pulse_to_waveform ⟨"q0.xy", 1, 2, 0, 0, "gaussian"⟩ 4).2.getD i 0 =
        2 * Real.exp (-(1 / 2 : ℝ) *
          ((((pulse_to_waveform ⟨"q0.xy", 1, 2, 0, 0, "gaussian"⟩ 4).1.getD i 0 - 1 / 2) / sigmaOf 1) ^ 2))) ∧
    sigmaOf 0 = 0 :=
  C9_gaussian_no_div_by_zero ⟨"q0.xy", 1, 2, 0, 0, "gaussian"⟩ 4 rfl one_pos

theorem parseFreq_ok (qubit_params : List (String × ParamValue)) (h : wfFreq qubit_params) :
    ∃ q, parseFreq qubit_params = Except.ok q := by
  unfold wfFreq at h
  unfold parseFreq
  cases hv : (qubit_params.lookup "frequency").getD (ParamValue.num 5.0e9) with
  | num x => exact ⟨x, rfl⟩
  | list xs =>
    rw [hv] at h
    cases xs with
    | nil => exact absurd rfl h
    | cons x rest => exact ⟨x, rfl⟩

theorem trapezoid_zero (t a : List ℝ) (h : ∀ x ∈ a, x = 0) : trapezoid t a = 0 := by
  induction t generalizing a with
  | nil => cases a <;> rfl
  | cons t1 ts ih =>
    cases ts with
    | nil => cases a <;> rfl
    | cons t2 ts2 =>
      cases a with
      | nil => rfl
      | cons a1 as1 =>
        cases as1 with
        | nil => rfl
        | cons a2 as2 =>
          have h1 : a1 = 0 := h a1 (by simp)
          have h2 : a2 = 0 := h a2 (by simp)
          have hrec : trapezoid (t2 :: ts2) (a2 :: as2) = 0 :=
            ih (a2 :: as2) (fun x hx => h x (List.mem_cons_of_mem _ hx))
          have hstep : trapezoid (t1 :: t2 :: ts2) (a1 :: a2 :: as2) =
              (t2 - t1) * (a1 + a2) / 2 + trapezoid (t2 :: ts2) (a2 :: as2) := rfl
          rw [hstep, hrec, h1, h2]
          ring

/-- Counterexample to C4 as stated: at the empty envelope and empty time
array the lengths match (0 = 0) and the parameter map is well-formed,
yet `simulate_qubit_evolution` does raise — the `qt.mesolve` call reads
`tlist[0]` and fails with `IndexError` — so "when the lengths match it
does not raise" is false of the program. -/
theorem C4_counterexample :
    ([] : List ℝ).length = ([] : List ℝ).length ∧
    simulate_qubit_evolution [] [] [] =
      Except.error "IndexError: index 0 is out of bounds for axis 0 with size 0" :=
  ⟨rfl, rfl⟩

/-- C4 (amended): `simulate_qubit_evolution` fails with the `ValueError`
"t_list e envelope precisam ter o mesmo tamanho" exactly when the time
and envelope arrays have different lengths, and that failure is fatal to
the call (the `Except.error` return carries no partial result); with
matching lengths, a well-formed parameter map, and nonempty arrays it
returns a result.  (The unamended "lengths match ⇒ no raise" fails at
the matching empty arrays, where the solver call raises `IndexError`:
see the counterexample.) -/
theorem C4_length_validation (pulse_envelope t_list : List ℝ)
    (qubit_params : List (String × ParamValue)) (hwf : wfFreq qubit_params) :
    ((simulate_qubit_evolution pulse_envelope t_list qubit_params =
        Except.error "t_list e envelope precisam ter o mesmo tamanho") ↔
      t_list.length ≠ pulse_envelope.length) ∧
    (t_list.length ≠ pulse_envelope.length →
      simulate_qubit_evolution pulse_envelope t_list qubit_params =
        Except.error "t_list e envelope precisam ter o mesmo tamanho") ∧
    (t_list.length = pulse_envelope.length → t_list ≠ [] →
      ∃ r, simulate_qubit_evolution pulse_envelope t_list qubit_params = Except.ok r) := by
  obtain ⟨q, hq⟩ := parseFreq_ok qubit_params hwf
  by_cases hl : t_list.length = pulse_envelope.length
  · cases t_list with
    | nil =>
      have henv : pulse_envelope = [] := by
        cases pulse_envelope with
        | nil => rfl
        | cons x xs => simp at hl
      subst henv
      refine ⟨?_, ?_, ?_⟩
      · simp [simulate_qubit_evolution, hq]
      · intro h
        exact absurd hl h
      · intro _ hne
        exact absurd rfl hne
    | cons t0 ts =>
      refine ⟨?_, ?_, ?_⟩
      · simp [simulate_qubit_evolution, hq, hl]
      · intro h
        exact absurd hl h
      · intro _ _
        simp [simulate_qubit_evolution, hq, hl]
  · refine ⟨?_, fun _ => ?_, fun h => absurd h hl⟩
    · simp [simulate_qubit_evolution, hq, hl]
    · simp [simulate_qubit_evolution, hq, hl]

/-- Witness for C4 (amended): envelope of length 10 against a time
array of length 9 fails with the validation error, and matching
nonempty lengths succeed. -/
theorem C4_witness :
    ((simulate_qubit_evolution (List.replicate 10 0) (List.replicate 9 0) [] =
        Except.error "t_list e envelope precisam ter o mesmo tamanho") ↔
      (List.replicate 9 (0 : ℝ)).length ≠ (List.replicate 10 (0 : ℝ)).length) ∧
    ((List.replicate 9 (0 : ℝ)).length ≠ (List.replicate 10 (0 : ℝ)).length →
      simulate_qubit_evolution (List.replicate 10 0) (List.replicate 9 0) [] =
        Except.error "t_list e envelope precisam ter o mesmo tamanho") ∧
    ((List.replicate 9 (0 : ℝ)).length = (List.replicate 10 (0 : ℝ)).length →
      List.replicate 9 (0 : ℝ) ≠ [] →
      ∃ r, simulate_qubit_evolution (List.replicate 10 0) (List.replicate 9 0) [] = Except.ok r) :=
  C4_length_validation (List.replicate 10 0) (List.replicate 9 0) [] (by decide)

/-- C8: an all-zero envelope with a matching, nonempty time array (any
positive duration yields a nonempty grid) gives a final excited-state
population of exactly 0 — in particular within the 1e-6 solver
tolerance — and, in general, every successful result of
`simulate_qubit_evolution` is a probability in `[0, 1]`. -/
theorem C8_zero_drive_and_range :
    (∀ (pulse_envelope t_list : List ℝ) (qubit_params : List (String × ParamValue)),
      (∀ x ∈ pulse_envelope, x = 0) → t_list.length = pulse_envelope.length →
      t_list ≠ [] → wfFreq qubit_params →
      ∃ r, simulate_qubit_evolution pulse_envelope t_list qubit_params = Except.ok r ∧
        r = 0 ∧ |r| ≤ 1e-6) ∧
    (∀ (pulse_envelope t_list : List ℝ) (qubit_params : List (String × ParamValue)) (r : ℝ),
      simulate_qubit_evolution pulse_envelope t_list qubit_params = Except.ok r →
      0 ≤ r ∧ r ≤ 1) := by
  constructor
  · intro env t p hz hl hne hwf
    obtain ⟨q, hq⟩ := parseFreq_ok p hwf
    have hzero : trapezoid t (env.map ((fun x => 2 * Real.pi * x) ∘
        (fun x => x * VOLT_TO_RABI_HERTZ))) = 0 := by
      apply trapezoid_zero
      intro x hx
      simp only [List.mem_map, Function.comp] at hx
      obtain ⟨y, hy, hyx⟩ := hx
      rw [← hyx, hz y hy]
      ring
    have hie : t.isEmpty = false := by
      cases t with
      | nil => exact absurd rfl hne
      | cons t0 ts => rfl
    refine ⟨0, ?_, rfl, by norm_num⟩
    simp [simulate_qubit_evolution, hq, hl, hie, List.map_map, hzero]
  · intro env t p r hr
    unfold simulate_qubit_evolution at hr
    cases hpf : parseFreq p with
    | error e => rw [hpf] at hr; exact absurd hr (by simp)
    | ok q =>
      rw [hpf] at hr
      simp only at hr
      by_cases hl : t.length = ((env.map (fun x => x * VOLT_TO_RABI_HERTZ)).map
          (fun x => 2 * Real.pi * x)).length
      · rw [if_neg (by simpa using hl)] at hr
        by_cases hie : t.isEmpty
        · rw [if_pos hie] at hr
          exact absurd hr (by simp)
        · rw [if_neg hie] at hr
          have hrr : r = Real.sin (trapezoid t ((env.map (fun x => x * VOLT_TO_RABI_HERTZ)).map
              (fun x => 2 * Real.pi * x)) / 2) ^ 2 := by
            cases hr
            rfl
          rw [hrr]
          exact ⟨sq_nonneg _, Real.sin_sq_le_one _⟩
      · rw [if_pos (by simpa using hl)] at hr
        exact absurd hr (by simp)

/-- Witness for C8: the all-zero length-3 envelope on a nonempty
length-3 time grid gives exactly 0, and the range statement applies to
that run. -/
theorem C8_witness :
    ∃ r, simulate_qubit_evolution [0, 0, 0] [0, 1, 2] [] = Except.ok r ∧
      r = 0 ∧ |r| ≤ 1e-6 :=
  C8_zero_drive_and_range.1 [0, 0, 0] [0, 1, 2] [] (by simp) (by simp)
    (List.cons_ne_nil 0 [1, 2]) (by decide)

/-- C10: the simulator's result does not depend on the `frequency`
entry of the parameter map: for two maps that agree outside
`"frequency"` and whose `frequency` entries both parse (scalar or
nonempty list), `simulate_qubit_evolution` returns identical results —
the parsed frequency is bound but never enters the Hamiltonian or any
later computation. -/
theorem C10_frequency_noninterference (pulse_envelope t_list : List ℝ)
    (p1 p2 : List (String × ParamValue))
    (hdiff : ∀ k, k ≠ "frequency" → p1.lookup k = p2.lookup k)
    (h1 : wfFreq p1) (h2 : wfFreq p2) :
    simulate_qubit_evolution pulse_envelope t_list p1 =
      simulate_qubit_evolution pulse_envelope t_list p2 := by
  obtain ⟨q1, hq1⟩ := parseFreq_ok p1 h1
  obtain ⟨q2, hq2⟩ := parseFreq_ok p2 h2
  simp [simulate_qubit_evolution, hq1, hq2]

/-- Witness for C10: two parameter maps with different frequencies (5 GHz
vs 7 GHz) give identical simulator results on a concrete run. -/
theorem C10_witness :
    simulate_qubit_evolution [0] [0] [("frequency", ParamValue.num 5000000000)] =
      simulate_qubit_evolution [0] [0] [("frequency", ParamValue.num 7000000000)] :=
  C10_frequency_noninterference [0] [0] _ _
    (fun k hk => by
      have hb : (k == "frequency") = false := beq_eq_false_iff_ne.mpr hk
      simp [List.lookup, hb])
    (by decide) (by decide)

theorem runCalls_eq_append (operations : List Operation) (calls : List BuilderCall) :
    runCalls operations calls = operations ++ calls.map callOp := by
  induction calls generalizing operations with
  | nil => simp [runCalls]
  | cons c cs ih =>
    have hstep : runCalls operations (c :: cs) = runCalls (applyCall operations c) cs := rfl
    have happ : applyCall operations c = operations ++ [callOp c] := by
      cases c <;> rfl
    rw [hstep, ih, happ, List.append_assoc]
    rfl

/-- C7: a builder that receives a straight-line series of `append` and
`delay` calls ends up holding exactly the corresponding operations in
call order — it never reorders, drops or inserts anything beyond the
`DelayOperation` that `delay` itself appends — and `Experiment.run`
starts from a fresh (empty) builder, hands exactly that list to
`backend.execute`, and returns the backend's result unmodified. -/
theorem C7_sequence_order {α : Type} (calls : List BuilderCall)
    (execute : List Operation → α) :
    runCalls [] calls = calls.map callOp ∧
    Experiment.run calls execute = execute (calls.map callOp) := by
  have h := runCalls_eq_append [] calls
  rw [List.nil_append] at h
  exact ⟨h, by rw [Experiment.run, h]⟩

/-- C6: `QuTiPSimulationBackend.execute` returns exactly `0.0` when the
sequence holds no XY-channel `PulseOperation`; otherwise its value is
the simulator result for the first such pulse only — any two sequences
with the same first XY drive pulse (regardless of delays, measures, or
later pulses) execute identically. -/
theorem C6_backend_first_pulse (operations : List Operation)
    (devs : List (String × Device)) :
    (firstXYPulse operations = none →
      QuTiPSimulationBackend.execute operations devs = Except.ok 0) ∧
    (∀ operations2, firstXYPulse operations2 = firstXYPulse operations →
      QuTiPSimulationBackend.execute operations2 devs =
        QuTiPSimulationBackend.execute operations devs) ∧
    (∀ p, firstXYPulse operations = some p →
      QuTiPSimulationBackend.execute operations devs =
        (match firstQubitParams devs with
         | Except.error e => Except.error e
         | Except.ok qubit_params =>
           simulate_qubit_evolution (pulse_to_waveform p 1e9).2
             (pulse_to_waveform p 1e9).1 qubit_params)) := by
  refine ⟨?_, ?_, ?_⟩
  · intro h
    unfold QuTiPSimulationBackend.execute
    rw [h]
  · intro ops2 h
    unfold QuTiPSimulationBackend.execute
    rw [h]
  · intro p h
    unfold QuTiPSimulationBackend.execute
    rw [h]

/-- Witness for C6: a pulse-free sequence returns exactly 0, and a
sequence of a delay plus a measure executes like the empty sequence. -/
theorem C6_witness :
    QuTiPSimulationBackend.execute [Operation.measure "q0.measure" (ParamValue.num 1)] [] =
      Except.ok 0 ∧
    QuTiPSimulationBackend.execute
        [Operation.delay 5, Operation.measure "q0.measure" (ParamValue.num 1)] [] =
      QuTiPSimulationBackend.execute [] [] :=
  ⟨(C6_backend_first_pulse [Operation.measure "q0.measure" (ParamValue.num 1)] []).1 rfl,
   (C6_backend_first_pulse [] []).2.1
     [Operation.delay 5, Operation.measure "q0.measure" (ParamValue.num 1)] rfl⟩

theorem lookup_eq_of_mem_nodup {β : Type} (l : List (String × β)) (n : String) (c : β)
    (hn : (l.map Prod.fst).Nodup) (h : (n, c) ∈ l) : l.lookup n = some c := by
  induction l with
  | nil => cases h
  | cons p rest ih =>
    obtain ⟨m, c0⟩ := p
    rw [List.map_cons, List.nodup_cons] at hn
    rcases List.mem_cons.mp h with heq | hmem
    · obtain ⟨rfl, rfl⟩ := Prod.mk.injEq .. ▸ heq
      simp [List.lookup]
    · have hne : n ≠ m := by
        intro hcontra
        subst hcontra
        exact hn.1 (List.mem_map.mpr ⟨(n, c), hmem, rfl⟩)
      have hb : (n == m) = false := beq_eq_false_iff_ne.mpr hne
      simp only [List.lookup, hb]
      exact ih hn.2 hmem

theorem buildAll_keys_sublist (cfgs : Config) :
    ((buildAll cfgs).map Prod.fst).Sublist (cfgs.map Prod.fst) := by
  induction cfgs with
  | nil => simp [buildAll]
  | cons p rest ih =>
    obtain ⟨n, cfg⟩ := p
    unfold buildAll
    cases buildDevice n cfg with
    | none => exact ih.cons _
    | some d => exact ih.cons₂ _

theorem mem_buildAll_inv (cfgs : Config) (n : String) (d : Device)
    (h : (n, d) ∈ buildAll cfgs) :
    ∃ cfg, (n, cfg) ∈ cfgs ∧ buildDevice n cfg = some d := by
  induction cfgs with
  | nil => cases h
  | cons p rest ih =>
    obtain ⟨m, cfg0⟩ := p
    unfold buildAll at h
    cases hb : buildDevice m cfg0 with
    | none =>
      rw [hb] at h
      obtain ⟨cfg, hc, hbd⟩ := ih h
      exact ⟨cfg, List.mem_cons_of_mem _ hc, hbd⟩
    | some d0 =>
      rw [hb] at h
      rcases List.mem_cons.mp h with heq | hmem
      · obtain ⟨rfl, rfl⟩ := Prod.mk.injEq .. ▸ heq
        exact ⟨cfg0, List.mem_cons_self _ _, hb⟩
      · obtain ⟨cfg, hc, hbd⟩ := ih hmem
        exact ⟨cfg, List.mem_cons_of_mem _ hc, hbd⟩

theorem mem_buildAll_of (cfgs : Config) (n : String) (cfg : DeviceConfig) (d : Device)
    (hc : (n, cfg) ∈ cfgs) (hb : buildDevice n cfg = some d) : (n, d) ∈ buildAll cfgs := by
  induction cfgs with
  | nil => cases hc
  | cons p rest ih =>
    obtain ⟨m, cfg0⟩ := p
    rcases List.mem_cons.mp hc with heq | hmem
    · obtain ⟨rfl, rfl⟩ := Prod.mk.injEq .. ▸ heq
      unfold buildAll
      rw [hb]
      exact List.mem_cons_self _ _
    · unfold buildAll
      cases buildDevice m cfg0 with
      | none => exact ih hmem
      | some d0 => exact List.mem_cons_of_mem _ (ih hmem)

theorem buildDevice_qubit_inv (n : String) (cfg : DeviceConfig) (a : String)
    (b : List (String × ParamValue)) (c : Option ReadoutChannel)
    (h : buildDevice n cfg = some (Device.tunableQubit a b c)) :
    a = n ∧ b = cfg.parameters ∧ c = none ∧ cfg.type = "TunableQubit" := by
  unfold buildDevice at h
  by_cases h1 : cfg.type = "TunableQubit"
  · rw [if_pos h1] at h
    injection h with h2
    injection h2 with ha hb hc
    exact ⟨ha.symm, hb.symm, hc.symm, h1⟩
  · rw [if_neg h1] at h
    by_cases h2 : cfg.type = "ReadoutResonator"
    · rw [if_pos h2] at h
      injection h with h3
      cases h3
    · rw [if_neg h2] at h
      cases h

theorem linkAll_ok (cfgs : Config) (devs : List (String × Device))
    (l : List (String × Device))
    (h : ∀ p ∈ l, ∃ d2, linkQubit cfgs devs p.2 = Except.ok d2) :
    ∃ out, linkAll cfgs devs l = Except.ok out ∧
      out.map Prod.fst = l.map Prod.fst ∧
      (∀ n d, (n, d) ∈ l → ∀ d2, linkQubit cfgs devs d = Except.ok d2 → (n, d2) ∈ out) := by
  induction l with
  | nil => exact ⟨[], rfl, rfl, fun n d hmem => absurd hmem (List.not_mem_nil _)⟩
  | cons p rest ih =>
    obtain ⟨n0, d0⟩ := p
    obtain ⟨d2, hd2⟩ := h (n0, d0) (List.mem_cons_self _ _)
    obtain ⟨out0, hout0, hkeys, hmem0⟩ := ih (fun q hq => h q (List.mem_cons_of_mem _ hq))
    refine ⟨(n0, d2) :: out0, ?_, ?_, ?_⟩
    · unfold linkAll
      rw [hd2, hout0]
    · rw [List.map_cons, List.map_cons, hkeys]
    · intro n d hmem dd hdd
      rcases List.mem_cons.mp hmem with heq | hmem2
      · obtain ⟨rfl, rfl⟩ := Prod.mk.injEq .. ▸ heq
        rw [hd2] at hdd
        injection hdd with hdd2
        rw [← hdd2]
        exact List.mem_cons_self _ _
      · exact List.mem_cons_of_mem _ (hmem0 n d hmem2 dd hdd)

theorem linkQubit_eq (cfgs : Config) (devs : List (String × Device)) (n : String)
    (params : List (String × ParamValue)) :
    linkQubit cfgs devs (Device.tunableQubit n params none) =
      (match cfgs.lookup n with
       | none => Except.error "KeyError: device name"
       | some cfg =>
         match cfg.channels.lookup "readout" with
         | none => Except.error "KeyError: readout"
         | some readout_name =>
           match devs.lookup readout_name with
           | none => Except.ok (Device.tunableQubit n params none)
           | some (Device.readoutResonator _ _ mc) =>
             Except.ok (Device.tunableQubit n params (some mc))
           | some (Device.tunableQubit _ _ _) =>
             Except.error "AttributeError: TunableQubit object has no attribute measure_channel") :=
  rfl

theorem linkQubit_resolves (cfgs : Config) (devs : List (String × Device)) (n : String)
    (params : List (String × ParamValue)) (cfg : DeviceConfig) (rn : String)
    (hc : cfgs.lookup n = some cfg) (hr : cfg.channels.lookup "readout" = some rn) :
    linkQubit cfgs devs (Device.tunableQubit n params none) =
      (match devs.lookup rn with
       | none => Except.ok (Device.tunableQubit n params none)
       | some (Device.readoutResonator _ _ mc) =>
         Except.ok (Device.tunableQubit n params (some mc))
       | some (Device.tunableQubit _ _ _) =>
         Except.error "AttributeError: TunableQubit object has no attribute measure_channel") := by
  rw [linkQubit_eq, hc]
  dsimp only
  rw [hr]

/-- The outcome clause of the amended C3: whenever construction of the
graph from `cfgs` succeeds with result `out`, each configured
`TunableQubit` whose `channels.readout` name resolves to nothing in the
graph stays unlinked (`readout = none`), and each whose name resolves to
a `ReadoutResonator` holds that resonator's own `measure_channel` —
the very channel record the resonator owns, which under unique device
names models Python object identity. -/
def linkedOutcome (cfgs : Config) (out : List (String × Device)) : Prop :=
  ∀ n cfg rn, (n, cfg) ∈ cfgs → cfg.type = "TunableQubit" →
    cfg.channels.lookup "readout" = some rn →
    (((buildAll cfgs).lookup rn = none →
        out.lookup n = some (Device.tunableQubit n cfg.parameters none)) ∧
     (∀ x p mc, (buildAll cfgs).lookup rn = some (Device.readoutResonator x p mc) →
        out.lookup n = some (Device.tunableQubit n cfg.parameters (some mc))))

/-- C3 (amended): for every configuration with unique device names in
which every `TunableQubit` entry has a `channels.readout` name that
either resolves to a `ReadoutResonator` of the graph or resolves to no
device at all, `System._load_devices` completes without error; a
resolving qubit ends up holding the named resonator's own
`measure_channel`, and a non-resolving one stays unlinked with
`readout = None`.  (The unamended claim fails when the name resolves to
a device that is not a `ReadoutResonator`: see the counterexample.) -/
theorem C3_amended_linking (cfgs : Config)
    (hnodup : (cfgs.map Prod.fst).Nodup)
    (hro : ∀ n cfg, (n, cfg) ∈ cfgs → cfg.type = "TunableQubit" →
      ∃ rn, cfg.channels.lookup "readout" = some rn ∧
        ((buildAll cfgs).lookup rn = none ∨
         ∃ x p mc, (buildAll cfgs).lookup rn = some (Device.readoutResonator x p mc))) :
    ∃ out, loadDevices cfgs = Except.ok out ∧
      out.map Prod.fst = (buildAll cfgs).map Prod.fst ∧
      linkedOutcome cfgs out := by
  have hok : ∀ p ∈ buildAll cfgs, ∃ d2, linkQubit cfgs (buildAll cfgs) p.2 = Except.ok d2 := by
    rintro ⟨m, d⟩ hmem
    cases d with
    | readoutResonator x p mc => exact ⟨_, rfl⟩
    | tunableQubit a b c =>
      obtain ⟨cfg, hc, hbd⟩ := mem_buildAll_inv _ _ _ hmem
      obtain ⟨ha, hbp, hcn, htype⟩ := buildDevice_qubit_inv _ _ _ _ _ hbd
      obtain ⟨rn, hrn, hres⟩ := hro m cfg hc htype
      have hlook : cfgs.lookup m = some cfg := lookup_eq_of_mem_nodup cfgs m cfg hnodup hc
      rw [ha, hbp, hcn, linkQubit_resolves cfgs (buildAll cfgs) m cfg.parameters cfg rn hlook hrn]
      rcases hres with hnone | ⟨x, pr, mc, hsome⟩
      · rw [hnone]
        exact ⟨_, rfl⟩
      · rw [hsome]
        exact ⟨_, rfl⟩
  obtain ⟨out, hout, hkeys, hmem⟩ := linkAll_ok cfgs (buildAll cfgs) (buildAll cfgs) hok
  have houtnodup : (out.map Prod.fst).Nodup := by
    rw [hkeys]
    exact (buildAll_keys_sublist cfgs).nodup hnodup
  refine ⟨out, hout, hkeys, ?_⟩
  intro n cfg rn hc htype hrn
  have hbd : buildDevice n cfg = some (Device.tunableQubit n cfg.parameters none) := by
    unfold buildDevice
    rw [if_pos htype]
  have hmemq : (n, Device.tunableQubit n cfg.parameters none) ∈ buildAll cfgs :=
    mem_buildAll_of _ _ _ _ hc hbd
  have hlookc : cfgs.lookup n = some cfg := lookup_eq_of_mem_nodup _ _ _ hnodup hc
  constructor
  · intro hnone
    have hlq : linkQubit cfgs (buildAll cfgs) (Device.tunableQubit n cfg.parameters none) =
        Except.ok (Device.tunableQubit n cfg.parameters none) := by
      rw [linkQubit_resolves cfgs (buildAll cfgs) n cfg.parameters cfg rn hlookc hrn, hnone]
    exact lookup_eq_of_mem_nodup out n _ houtnodup (hmem n _ hmemq _ hlq)
  · intro x p mc hsome
    have hlq : linkQubit cfgs (buildAll cfgs) (Device.tunableQubit n cfg.parameters none) =
        Except.ok (Device.tunableQubit n cfg.parameters (some mc)) := by
      rw [linkQubit_resolves cfgs (buildAll cfgs) n cfg.parameters cfg rn hlookc hrn, hsome]
    exact lookup_eq_of_mem_nodup out n _ houtnodup (hmem n _ hmemq _ hlq)

/-- Counterexample to C3 as stated: in a configuration whose single
`TunableQubit` names a device that exists in the graph but is not a
`ReadoutResonator` (here, itself), `System._load_devices` does not leave
the qubit unlinked — the linking pass's `resonator.measure_channel`
attribute access raises `AttributeError`, so construction fails. -/
theorem C3_counterexample :
    loadDevices [("q0", ⟨"TunableQubit", [("readout", "q0")], []⟩)] =
      Except.error "AttributeError: TunableQubit object has no attribute measure_channel" :=
  rfl

/-- Witness for C3 (amended) at the spec's own scenario: one qubit
`"q0"` whose readout names the one resonator `"r0"`. -/
theorem C3_witness :
    ∃ out,
      loadDevices [("q0", ⟨"TunableQubit", [("readout", "r0")], []⟩),
        ("r0", ⟨"ReadoutResonator", [], []⟩)] = Except.ok out ∧
      out.map Prod.fst =
        (buildAll [("q0", ⟨"TunableQubit", [("readout", "r0")], []⟩),
          ("r0", ⟨"ReadoutResonator", [], []⟩)]).map Prod.fst ∧
      linkedOutcome [("q0", ⟨"TunableQubit", [("readout", "r0")], []⟩),
        ("r0", ⟨"ReadoutResonator", [], []⟩)] out :=
  C3_amended_linking _ (by decide)
    (by
      intro n cfg hmem htype
      rcases List.mem_cons.mp hmem with heq | hmem2
      · obtain ⟨rfl, rfl⟩ := Prod.mk.injEq .. ▸ heq
        exact ⟨"r0", rfl, Or.inr ⟨"r0", [], ⟨"r0.measure", ParamValue.num (1 / 1000000)⟩, rfl⟩⟩
      · rcases List.mem_cons.mp hmem2 with heq2 | hmem3
        · obtain ⟨rfl, rfl⟩ := Prod.mk.injEq .. ▸ heq2
          exact absurd htype (by decide)
        · cases hmem3)

end QCS
